import Mathlib

/-!
Shallow embedding of the phasmo-server simulation core (map.rs, ghost.rs,
sim.rs) together with proofs about its specification.

Modelling conventions:
- RoomLabel (usize) is Nat; Duration is a Nat count of milliseconds.
- f64 quantities (sanity, drain rates, probabilities) are modelled as Rat;
  the properties proved about them are order properties that are robust in
  the real program as well.
- HashSet is modelled as a List used only through membership.
- rand calls are modelled by oracle inputs (the Rand structure below): each
  random draw the program makes is an explicit parameter.
- Rust integer division on i32 truncates toward zero, so Int.tdiv is used.
- Recursive search carries an explicit fuel argument; a fuel of
  rooms.length + 2 exceeds the maximal recursion depth (the visited set
  grows by one distinct label per level), so the fuelled function agrees
  with the source recursion on every input it is used at.
-/

namespace Phasmo

/-- Milliseconds, standing in for Duration. -/
abbrev Millis := Nat

structure Room where
  label : Nat
  connected_rooms : List Nat
deriving DecidableEq, Repr

structure Map where
  rooms : List Room
deriving DecidableEq, Repr

/-- The fixed 14-room reference topology of Map::new in map.rs. -/
def Map.new : Map :=
  { rooms := [
      ⟨0, [1, 2, 13]⟩,
      ⟨1, [0]⟩,
      ⟨2, [0, 3, 4, 6]⟩,
      ⟨3, [2, 4]⟩,
      ⟨4, [2, 3, 5]⟩,
      ⟨5, [4]⟩,
      ⟨6, [2, 7]⟩,
      ⟨7, [6]⟩,
      ⟨8, [9]⟩,
      ⟨9, [8, 13]⟩,
      ⟨10, [11, 13, 9]⟩,
      ⟨11, [10]⟩,
      ⟨12, [13]⟩,
      ⟨13, [0, 9, 10, 12]⟩ ] }

/-- Map::_get_path: depth-first enumeration of cycle-free paths, keeping the
shortest one found; all recursive results are collected and the minimum by
length is taken, starting from a sentinel of length rooms.len() + 1. -/
def Map.getPathAux (m : Map) (fuel : Nat) (room target : Nat)
    (path : List Nat) (visited : List Nat) : Option (List Nat) :=
  match fuel with
  | 0 => none
  | fuel + 1 =>
    if room = target then some path
    else
      let adjs := ((m.rooms.getD room ⟨0, []⟩).connected_rooms).filter
        (fun a => ¬ visited.contains a)
      let paths := adjs.map
        (fun a => m.getPathAux fuel a target (path ++ [a]) (visited ++ [a]))
      if paths.isEmpty then none
      else
        some (paths.foldl
          (fun best p =>
            match p with
            | none => best
            | some p => if p.length < best.length then p else best)
          (List.range (m.rooms.length + 1)))

/-- Map::get_path: run the search from an empty path and visited set, unwrap,
and reverse (so the next hop sits at the end, where Vec::pop removes it).
The unwrap is modelled by a default of []; the totality theorem below shows
the search result is always some on the reference topology. -/
def Map.get_path (m : Map) (f t : Nat) : List Nat :=
  ((m.getPathAux (m.rooms.length + 2) f t [] []).getD []).reverse

/-- Breadth-first-search oracle over the same adjacency lists: level sets of
the directed graph, returning the hop distance when the target is reached. -/
def bfsAux (m : Map) (target : Nat) : Nat → List Nat → List Nat → Nat → Option Nat
  | 0, _, _, _ => none
  | fuel + 1, frontier, visited, d =>
    if frontier.contains target then some d
    else
      let nf := (frontier.flatMap (fun r => (m.rooms.getD r ⟨0, []⟩).connected_rooms)).filter
        (fun a => ¬ visited.contains a)
      if nf.isEmpty then none
      else bfsAux m target fuel nf (visited ++ nf) (d + 1)

/-- Hop distance from f to t computed by the BFS oracle. -/
def bfsDist (m : Map) (f t : Nat) : Option Nat :=
  bfsAux m t (m.rooms.length + 1) [f] [f] 0

inductive EvidenceType where
  | Emf
  | Ultraviolet
  | Freezing
  | GhostOrbs
  | Writing
  | SpiritBox
deriving DecidableEq, Repr

inductive GhostType where
  | Spirit
  | Poltergeist
  | Jinn
  | Mare
  | Revenant
  | Shade
  | Demon
  | Hantu
  | Myling
  | Onryo
  | Twins
  | Obake
  | Moroi
deriving DecidableEq, Repr

/-- GhostType::has_evidence_type is a stub in the source: always true. -/
def GhostType.has_evidence_type (_ : GhostType) (_ : EvidenceType) : Bool :=
  true

structure Ghost where
  current_room : Nat
  ghost_room : Nat
  path_to_target : Option (List Nat)
deriving DecidableEq, Repr

def Ghost.new : Ghost :=
  { current_room := 0, ghost_room := 7, path_to_target := none }

/-- Ghost::has_evidence_type is a stub in the source: always true. -/
def Ghost.has_evidence_type (_ : Ghost) (_ : EvidenceType) : Bool :=
  true

/-- Ghost::next_target: at home, pick a uniformly random other room (the rng
index is the pick oracle, reduced mod the list length); away from home, head
home. -/
def Ghost.next_target (g : Ghost) (map : Map) (pick : Nat) : Nat :=
  if g.current_room = g.ghost_room then
    let other_rooms :=
      (map.rooms.filter (fun r => r.label ≠ g.current_room)).map (fun r => r.label)
    other_rooms.getD (pick % other_rooms.length) g.ghost_room
  else g.ghost_room

/-- Ghost::move_room: with no pending path, choose a target and store the
path to it (no movement this tick); with a pending path, pop the last
element (the next hop), move there, and clear the path once empty.  The
source unwraps the popped element; pending paths are nonempty in reachable
states, and the empty case is modelled as staying put. -/
def Ghost.move_room (g : Ghost) (map : Map) (pick : Nat) : Ghost :=
  match g.path_to_target with
  | none =>
    let target := g.next_target map pick
    { g with path_to_target := some (map.get_path g.current_room target) }
  | some path =>
    let popped := path.getLast?.getD g.current_room
    let rest := path.dropLast
    { g with
        current_room := popped,
        path_to_target := if rest.isEmpty then none else some rest }

inductive EventTrigger where
  | RemoveGhostOrbs
  | UpdateThermometer
  | EndEMF
  | EndHunt
deriving DecidableEq, Repr

structure Player where
  name : String
  addr : Nat
  last_loc : Option Nat
  sanity : Rat
deriving DecidableEq, Repr

/-- Player::drain_sanity: subtract, flooring the result at 0. -/
def Player.drain_sanity (p : Player) (amt : Rat) : Player :=
  let new_amt := p.sanity - amt
  { p with sanity := if new_amt < 0 then 0 else new_amt }

structure SimFlags where
  last_event_pulse : Millis
  last_ghost_move : Millis
  emf_level : Nat
  ghost_type : GhostType
  ghost_room_min_temp : Int
  delta_temp : Int
  ambient_temp : Int
  orbs_visible : Bool
  book_location : Option Nat
  ghost_writing_visible : Bool
  is_hunting : Bool
deriving DecidableEq, Repr

/-- SimFlags::new; the rng draw gen_range(4..10) for mins_to_min_temp is the
parameter.  has_evidence_type is the always-true stub, so the Freezing branch
is taken and the minimum temperature is 28.  Rust i32 division truncates
toward zero, hence Int.tdiv. -/
def SimFlags.new (mins_to_min_temp : Nat) : SimFlags :=
  let ghost_type := GhostType.Spirit
  let ambient_temp : Int := 50
  let ghost_room_min_temp : Int :=
    if ghost_type.has_evidence_type EvidenceType.Freezing then 28 else 35
  let delta_temp : Int := Int.tdiv (ghost_room_min_temp - ambient_temp) mins_to_min_temp
  { last_ghost_move := 0
    last_event_pulse := 0
    emf_level := 0
    ghost_type := ghost_type
    ambient_temp := ambient_temp
    ghost_room_min_temp := ghost_room_min_temp
    delta_temp := delta_temp
    orbs_visible := false
    book_location := none
    ghost_writing_visible := false
    is_hunting := false }

structure SimOptions where
  ghost_move_interval : Millis
  event_pulse_interval : Millis
  ghost_orbs_duration : Millis
  ghost_orbs_frequency : Rat
  temperature_variability : Int
  thermometer_update_interval : Millis
  ghost_interaction_frequency : Rat
  ghost_event_frequency : Rat
  emf_blast_duration : Millis
  ghost_hunt_frequency : Rat
  ghost_hunt_duration : Millis
  sanity_drain_rate : Rat
deriving DecidableEq, Repr

def SimOptions.new : SimOptions :=
  { ghost_move_interval := 10000
    event_pulse_interval := 10000
    ghost_orbs_duration := 20000
    ghost_orbs_frequency := 1
    temperature_variability := 5
    thermometer_update_interval := 2000
    ghost_interaction_frequency := 5 / 4
    ghost_event_frequency := 5 / 4
    ghost_hunt_frequency := 0
    ghost_hunt_duration := 30000
    emf_blast_duration := 3000
    sanity_drain_rate := 1 / 20 }

inductive InteractionType where
  | Sound
  | LightsFlicker
deriving DecidableEq, Repr

/-- InteractionType::generate_interaction; rng_select over the two-element
list is modelled by the pick oracle mod 2. -/
def InteractionType.generate_interaction (pick : Nat) : InteractionType :=
  [InteractionType.Sound, InteractionType.LightsFlicker].getD (pick % 2)
    InteractionType.Sound

def InteractionType.interaction_msg : InteractionType → String
  | InteractionType.Sound => "Sound"
  | InteractionType.LightsFlicker => "Lights"

/-- Oracle values for every random draw one update call can make. -/
structure Rand where
  stayRoll : Bool
  targetPick : Nat
  writingRoll : Bool
  orbRoll : Bool
  emfVal : Nat
  interactionPick : Nat
deriving DecidableEq, Repr

structure Simulation where
  players : List Player
  started : Bool
  event_triggers : List (Millis × EventTrigger)
  ghost : Ghost
  map : Map
  cur_time : Millis
  flags : SimFlags
  options : SimOptions
  notify_queue : List String
deriving DecidableEq, Repr

/-- Simulation::new; the rng draw inside SimFlags::new is the parameter. -/
def Simulation.new (mins_to_min_temp : Nat) : Simulation :=
  { players := []
    started := false
    event_triggers := [(0, EventTrigger.UpdateThermometer)]
    ghost := Ghost.new
    map := Map.new
    cur_time := 0
    flags := SimFlags.new mins_to_min_temp
    options := SimOptions.new
    notify_queue := [] }

/-- Simulation::add_player: reject a repeated address, then a repeated name,
both without mutation; otherwise append a fresh player with sanity 100 and
unknown location. -/
def Simulation.add_player (s : Simulation) (addr : Nat) (name : String) :
    Except String Unit × Simulation :=
  if s.players.any (fun p => p.addr = addr) then
    (Except.error "Already connected", s)
  else if s.players.any (fun p => p.name = name) then
    (Except.error "Name taken", s)
  else
    (Except.ok (),
     { s with players := s.players ++
         [{ name := name, addr := addr, last_loc := none, sanity := 100 }] })

/-- iter_mut().find: update only the first player whose name matches. -/
def setFirstLoc (name : String) (location : Nat) : List Player → List Player
  | [] => []
  | p :: ps =>
    if p.name = name then { p with last_loc := some location } :: ps
    else p :: setFirstLoc name location ps

/-- Simulation::update_player_loc: silent no-op on unknown name. -/
def Simulation.update_player_loc (s : Simulation) (name : String) (location : Nat) :
    Simulation :=
  { s with players := setFirstLoc name location s.players }

/-- Simulation::start. -/
def Simulation.start (s : Simulation) : Simulation :=
  { s with started := true }

/-- Simulation::move_ghost: optional stay roll when sitting in the ghost
room, otherwise Ghost::move_room; then the ghost-writing side channel. -/
def moveGhostStep (map : Map) (r : Rand) (g : Ghost) (fl : SimFlags) :
    Ghost × SimFlags :=
  let stay := decide (g.current_room = g.ghost_room) && r.stayRoll
  let g1 := if stay then g else g.move_room map r.targetPick
  let fl1 :=
    match fl.book_location with
    | some book_room =>
      if !fl.ghost_writing_visible && decide (g1.current_room = book_room)
          && r.writingRoll then
        { fl with ghost_writing_visible := true }
      else fl
    | none => fl
  (g1, fl1)

/-- Simulation::blast_emf: a no-op while the level is nonzero; otherwise set
a level in min..=max (oracle-driven) and schedule the blast end. -/
def blastEmf (cur : Millis) (opt : SimOptions) (min_amount max_amount emfVal : Nat)
    (fl : SimFlags) (trigs : List (Millis × EventTrigger)) :
    SimFlags × List (Millis × EventTrigger) :=
  if fl.emf_level ≠ 0 then (fl, trigs)
  else
    ({ fl with emf_level := min_amount + emfVal % (max_amount - min_amount + 1) },
     trigs ++ [(cur + opt.emf_blast_duration, EventTrigger.EndEMF)])

/-- Simulation::event_pulse: orb manifestation roll, then the (currently
unconditional) ghost interaction: extra sanity drain, an EMF blast, and a
notification message. -/
def eventPulse (cur : Millis) (opt : SimOptions) (g : Ghost) (r : Rand)
    (players : List Player) (fl : SimFlags) (trigs : List (Millis × EventTrigger))
    (notify : List String) :
    List Player × SimFlags × List (Millis × EventTrigger) × List String :=
  let orbStep :=
    if !fl.orbs_visible && r.orbRoll then
      ({ fl with orbs_visible := true },
       trigs ++ [(cur + opt.ghost_orbs_duration, EventTrigger.RemoveGhostOrbs)])
    else (fl, trigs)
  let fl1 := orbStep.1
  let trigs1 := orbStep.2
  let interaction := InteractionType.generate_interaction r.interactionPick
  let players1 := players.map (fun p =>
    p.drain_sanity (if p.last_loc = some g.current_room then 15 else 5))
  let min_emf := 2
  let max_emf := if g.has_evidence_type EvidenceType.Emf then 5 else 3
  let blastStep := blastEmf cur opt min_emf max_emf r.emfVal fl1 trigs1
  (players1, blastStep.1, blastStep.2, notify ++ [interaction.interaction_msg])

/-- Effect of one due trigger, applied to the kept-entry list and the flags:
RemoveGhostOrbs clears the orb flag, UpdateThermometer re-schedules itself at
cur + interval, EndEMF zeroes the EMF level, EndHunt clears the hunt flag. -/
def applyTrigger (cur : Millis) (opt : SimOptions)
    (acc : List (Millis × EventTrigger) × SimFlags) (e : Millis × EventTrigger) :
    List (Millis × EventTrigger) × SimFlags :=
  match e.2 with
  | EventTrigger.RemoveGhostOrbs => (acc.1, { acc.2 with orbs_visible := false })
  | EventTrigger.UpdateThermometer =>
      (acc.1 ++ [(cur + opt.thermometer_update_interval, EventTrigger.UpdateThermometer)],
       acc.2)
  | EventTrigger.EndEMF => (acc.1, { acc.2 with emf_level := 0 })
  | EventTrigger.EndHunt => (acc.1, { acc.2 with is_hunting := false })

/-- Simulation::check_triggers: split the entries into those strictly before
the current time (fired, in order) and the rest (kept), apply the fired
effects in order, and report whether anything fired.  Returns (new entry
list, new flags, fired entries, changed). -/
def checkTriggers (cur : Millis) (opt : SimOptions)
    (trigs : List (Millis × EventTrigger)) (fl : SimFlags) :
    List (Millis × EventTrigger) × SimFlags × List (Millis × EventTrigger) × Bool :=
  let triggered := trigs.filter (fun e => e.1 < cur)
  let remaining := trigs.filter (fun e => ¬ e.1 < cur)
  let applied := triggered.foldl (applyTrigger cur opt) (remaining, fl)
  (applied.1, applied.2, triggered, !triggered.isEmpty)

/-- Simulation::update, instrumented to also return the list of trigger
entries fired during the call.  Duration subtraction (cur - last) is Nat
truncated subtraction; in reachable states cur is at least last, where the
two agree with the source.  The dt millisecond count is a Nat. -/
def Simulation.updateExt (s : Simulation) (dt : Millis) (r : Rand) :
    Simulation × Bool × List (Millis × EventTrigger) :=
  let cur := s.cur_time + dt
  let seconds : Rat := (dt : Rat) / 1000
  let sanity_drain := s.options.sanity_drain_rate * seconds
  let players0 := s.players.map (fun p => p.drain_sanity sanity_drain)
  let moveStep :=
    if s.options.ghost_move_interval < cur - s.flags.last_ghost_move then
      let gfl := moveGhostStep s.map r s.ghost { s.flags with last_ghost_move := cur }
      (gfl.1, gfl.2, true)
    else (s.ghost, s.flags, false)
  let g1 := moveStep.1
  let fl1 := moveStep.2.1
  let changed1 := moveStep.2.2
  let pulseStep :=
    if s.options.event_pulse_interval < cur - fl1.last_event_pulse then
      let pulse := eventPulse cur s.options g1 r players0 fl1 s.event_triggers
        s.notify_queue
      (pulse.1, { pulse.2.1 with last_event_pulse := cur }, pulse.2.2.1,
       pulse.2.2.2, true)
    else (players0, fl1, s.event_triggers, s.notify_queue, false)
  let players1 := pulseStep.1
  let fl2 := pulseStep.2.1
  let trigs1 := pulseStep.2.2.1
  let notify1 := pulseStep.2.2.2.1
  let changed2 := pulseStep.2.2.2.2
  let checked := checkTriggers cur s.options trigs1 fl2
  let changed := checked.2.2.2 || (changed1 || changed2)
  ({ s with
      players := players1
      ghost := g1
      cur_time := cur
      flags := checked.2.1
      event_triggers := checked.1
      notify_queue := notify1 },
   changed, checked.2.2.1)

/-- Simulation::update: the state and changed flag of updateExt. -/
def Simulation.update (s : Simulation) (dt : Millis) (r : Rand) :
    Simulation × Bool :=
  ((s.updateExt dt r).1, (s.updateExt dt r).2.1)

/-- Two's-complement wrap of an integer into the i32 range, the result of a
release-build i32 operation. -/
def wrap32 (x : Int) : Int :=
  (x + 2147483648) % 4294967296 - 2147483648

/-- Simulation::ghost_room_temp: cur_time.as_secs() / 5 elapsed units, a
linear decay clamped at the minimum temperature.  The u64 count of units is
narrowed by try_into().unwrap_or(0), which falls back to 0 beyond i32::MAX;
the i32 multiplication and addition wrap in release builds, modelled by
wrap32 around each operation. -/
def Simulation.ghost_room_temp (s : Simulation) : Int :=
  let mins : Nat := s.cur_time / 1000 / 5
  let mins32 : Int := if (mins : Int) ≤ 2147483647 then (mins : Int) else 0
  let gr_temp := wrap32 (s.flags.ambient_temp + wrap32 (s.flags.delta_temp * mins32))
  max gr_temp s.flags.ghost_room_min_temp

/-- One externally driven call into the simulation. -/
inductive Op where
  | add_player (addr : Nat) (name : String)
  | update (dt : Millis) (r : Rand)
  | update_player_loc (name : String) (loc : Nat)

def Simulation.applyOp (s : Simulation) : Op → Simulation
  | Op.add_player a n => (s.add_player a n).2
  | Op.update dt r => (s.update dt r).1
  | Op.update_player_loc n l => s.update_player_loc n l

def Simulation.applyOps (s : Simulation) (ops : List Op) : Simulation :=
  ops.foldl Simulation.applyOp s

/-- The 3-room linear topology 0 - 1 - 2 of the movement scenario. -/
def map3 : Map :=
  { rooms := [⟨0, [1]⟩, ⟨1, [0, 2]⟩, ⟨2, [1]⟩] }

/-- Scenario ghost: home at room 2, starting at room 0, no pending path. -/
def ghostScenario : Ghost :=
  { current_room := 0, ghost_room := 2, path_to_target := none }

/-- Oracle with the stay roll forced to false (stay probability 0). -/
def randNoStay : Rand :=
  { stayRoll := false, targetPick := 0, writingRoll := false, orbRoll := false,
    emfVal := 0, interactionPick := 0 }

/-- Iterate the movement tick of Simulation::move_ghost n times on the
scenario topology, with the stay probability forced to 0. -/
def scenarioMoves : Nat → Ghost × SimFlags
  | 0 => (ghostScenario, SimFlags.new 4)
  | n + 1 =>
    let gf := scenarioMoves n
    moveGhostStep map3 randNoStay gf.1 gf.2

/-- Entry occurrence count in a trigger list. -/
def ecount (T : Millis) (k : EventTrigger) (l : List (Millis × EventTrigger)) : Nat :=
  l.countP (fun e => decide (e = (T, k)))

/-- Trigger entries fired during one update call. -/
def firedOf (s : Simulation) (dt : Millis) (r : Rand) : List (Millis × EventTrigger) :=
  (s.updateExt dt r).2.2

/-- C1: on the fixed 14-room reference topology, get_path(from, to) has
length equal to the true shortest hop distance computed by a breadth-first-
search oracle over the same adjacency lists, for every ordered pair of room
labels; in particular get_path(r, r) is the empty path for every room r. -/
theorem get_path_length_eq_bfs_distance :
    (∀ f t : Fin 14,
        some (Map.new.get_path f.val t.val).length = bfsDist Map.new f.val t.val)
    ∧ (∀ r : Fin 14, Map.new.get_path r.val r.val = []) := by
  decide

/-- C3 counterexample: the reference topology is not symmetric at the pair
(9, 10): room 10 lists room 9 as adjacent, but room 9 does not list 10. -/
theorem map_adjacency_asymmetric_at_9_10 :
    9 ∈ (Map.new.rooms.getD 10 ⟨0, []⟩).connected_rooms ∧
    10 ∉ (Map.new.rooms.getD 9 ⟨0, []⟩).connected_rooms := by
  decide

/-- C3 amended: the adjacency relation of the reference topology is
symmetric for every pair of room labels other than the single broken pair
9 and 10 (room 10 lists 9 while room 9 omits 10). -/
theorem map_adjacency_symmetric_except_9_10 :
    ∀ a b : Fin 14, ¬(a.val = 9 ∧ b.val = 10) → ¬(a.val = 10 ∧ b.val = 9) →
      (b.val ∈ (Map.new.rooms.getD a.val ⟨0, []⟩).connected_rooms ↔
       a.val ∈ (Map.new.rooms.getD b.val ⟨0, []⟩).connected_rooms) := by
  decide

/-- Witness for the amended C3 statement at the concrete pair (0, 1). -/
theorem map_adjacency_symmetric_except_9_10_witness :
    1 ∈ (Map.new.rooms.getD 0 ⟨0, []⟩).connected_rooms ↔
    0 ∈ (Map.new.rooms.getD 1 ⟨0, []⟩).connected_rooms :=
  map_adjacency_symmetric_except_9_10 0 1 (by decide) (by decide)

/-- C9: on the reference topology the recursive search always succeeds (the
internal Option is some for every ordered pair, with the exact fuel used by
get_path, so the unwrap never panics), there are 14 rooms, and every label
appearing in an adjacency list is below 14, so indexing is in bounds. -/
theorem get_path_total_and_in_bounds :
    (∀ f t : Fin 14,
        (Map.new.getPathAux (Map.new.rooms.length + 2) f.val t.val [] []).isSome = true)
    ∧ Map.new.rooms.length = 14
    ∧ Map.new.rooms.all
        (fun rm => rm.connected_rooms.all (fun a => decide (a < 14))) = true := by
  decide

/-- C2 counterexample: on the 3-room linear topology with home 2, start 0
and stay probability 0, the ghost is still at room 1 after exactly 2
movement ticks (the first tick only computes the path), so it has not
reached room 2. -/
theorem ghost_scenario_two_ticks_not_home :
    (scenarioMoves 2).1.current_room = 1 ∧
    ¬ (scenarioMoves 2).1.current_room = 2 := by
  decide

/-- C2 amended: on the 3-room linear topology with home 2, start 0 and stay
probability 0, the first movement tick only plans (the ghost stays at room 0
and stores the pending path, namely [1, 2] in next-hop-last order); the
ghost then reaches room 1 on tick 2 and room 2 on tick 3, following the path
1, 2, after which no path is pending. -/
theorem ghost_scenario_three_ticks :
    (scenarioMoves 1).1.current_room = 0 ∧
    (scenarioMoves 1).1.path_to_target = some [2, 1] ∧
    (scenarioMoves 2).1.current_room = 1 ∧
    (scenarioMoves 3).1.current_room = 2 ∧
    (scenarioMoves 3).1.path_to_target = none := by
  decide

/-- C6: add_player returns an error and leaves the whole simulation state
unchanged whenever the identity (addr) or the display name already exists in
the registry; otherwise it succeeds and appends exactly one new player with
sanity 100 and unknown location, so registry order is join order. -/
theorem add_player_spec (s : Simulation) (addr : Nat) (name : String) :
    ((s.players.any (fun p => p.addr = addr) = true ∨
      s.players.any (fun p => p.name = name) = true) →
        (s.add_player addr name).2 = s ∧
        ∃ e, (s.add_player addr name).1 = Except.error e)
    ∧ (s.players.any (fun p => p.addr = addr) = false →
       s.players.any (fun p => p.name = name) = false →
        (s.add_player addr name).1 = Except.ok () ∧
        (s.add_player addr name).2 =
          { s with players := s.players ++
              [{ name := name, addr := addr, last_loc := none, sanity := 100 }] }) := by
  constructor
  · intro h
    by_cases ha : s.players.any (fun p => p.addr = addr) = true
    · refine ⟨?_, ⟨"Already connected", ?_⟩⟩ <;> simp [Simulation.add_player, ha]
    · have hn : s.players.any (fun p => p.name = name) = true := by
        rcases h with h | h
        · exact absurd h ha
        · exact h
      have ha' : s.players.any (fun p => p.addr = addr) = false :=
        Bool.not_eq_true _ ▸ eq_false_of_ne_true ha
      refine ⟨?_, ⟨"Name taken", ?_⟩⟩ <;> simp [Simulation.add_player, ha', hn]
  · intro ha hn
    constructor <;> simp [Simulation.add_player, ha, hn]

/-- One-player fixture: the lobby after alice joined from address 0. -/
def simOneAlice : Simulation := ((Simulation.new 4).add_player 0 "alice").2

/-- Witness for C6: against the one-player fixture, a join repeating the
name alice from a fresh address is rejected without mutation, and a fresh
join succeeds and appends the expected player. -/
theorem add_player_spec_witness :
    ((simOneAlice.add_player 1 "alice").2 = simOneAlice ∧
      ∃ e, (simOneAlice.add_player 1 "alice").1 = Except.error e)
    ∧ ((simOneAlice.add_player 1 "bob").1 = Except.ok () ∧
       (simOneAlice.add_player 1 "bob").2 =
         { simOneAlice with players := simOneAlice.players ++
             [{ name := "bob", addr := 1, last_loc := none, sanity := 100 }] }) :=
  ⟨(add_player_spec simOneAlice 1 "alice").1 (Or.inr (by decide)),
   (add_player_spec simOneAlice 1 "bob").2 (by decide) (by decide)⟩

/-- C10: the state change and return value of update are independent of the
started flag: running update on a state whose started flag has been replaced
by b gives exactly the state and result of the original update with started
replaced by b, so the clock advances, sanity drains, and the ghost moves
even before start() was ever called. -/
theorem update_independent_of_started (s : Simulation) (b : Bool) (dt : Millis)
    (r : Rand) :
    Simulation.update { s with started := b } dt r =
      ({ (s.update dt r).1 with started := b }, (s.update dt r).2) := by
  cases s
  rfl

/-- Simulation observed at elapsed time t with temperature slope drawn from
mins_to_min_temp = m. -/
def simAt (m : Nat) (t : Millis) : Simulation :=
  { Simulation.new m with cur_time := t }

/-- Modelled from the spec words of C8: ambient baseline plus delta_temp per
whole elapsed 60-second minute, clamped at the minimum floor. -/
def specMinuteTemp (s : Simulation) : Int :=
  max (s.flags.ambient_temp + s.flags.delta_temp * ((s.cur_time / 1000 / 60 : Nat) : Int))
    s.flags.ghost_room_min_temp

/-- C8 counterexample: at 60 elapsed seconds (one whole minute) with the
slope drawn from mins_to_min_temp = 4, the code reads 28 while the formula
with whole elapsed minutes gives 45: the code advances the decay once per 5
elapsed seconds, not once per minute. -/
theorem ghost_room_temp_not_whole_minutes :
    (simAt 4 60000).ghost_room_temp = 28 ∧
    specMinuteTemp (simAt 4 60000) = 45 ∧
    (simAt 4 60000).ghost_room_temp ≠ specMinuteTemp (simAt 4 60000) := by
  decide

lemma delta_temp_bounds (m : Nat) (h4 : 4 ≤ m) (h10 : m < 10) :
    -5 ≤ (SimFlags.new m).delta_temp ∧ (SimFlags.new m).delta_temp ≤ -1 := by
  interval_cases m <;> decide

lemma new_ambient_temp (m : Nat) : (SimFlags.new m).ambient_temp = 50 := rfl

lemma new_min_temp (m : Nat) : (SimFlags.new m).ghost_room_min_temp = 28 := rfl

lemma wrap32_eq_self {x : Int} (h1 : -2147483648 ≤ x) (h2 : x ≤ 2147483647) :
    wrap32 x = x := by
  unfold wrap32
  omega

lemma wrap32_zero : wrap32 0 = 0 := by decide

lemma wrap32_fifty : wrap32 50 = 50 := by decide

/-- Within the i32 horizon (at most 429496729 elapsed 5-second units, about
68 years) neither the narrowing fallback nor the i32 wrap can strike, and
the reading is the ideal clamped linear decay. -/
lemma simAt_temp (m : Nat) (h4 : 4 ≤ m) (h10 : m < 10) (t : Millis)
    (hh : t / 1000 / 5 ≤ 429496729) :
    (simAt m t).ghost_room_temp =
      max ((SimFlags.new m).ambient_temp +
        (SimFlags.new m).delta_temp * ((t / 1000 / 5 : Nat) : Int))
        (SimFlags.new m).ghost_room_min_temp := by
  obtain ⟨hd5, hd1⟩ := delta_temp_bounds m h4 h10
  have hm : ((t / 1000 / 5 : Nat) : Int) ≤ 429496729 := by exact_mod_cast hh
  have hm0 : (0 : Int) ≤ ((t / 1000 / 5 : Nat) : Int) := Int.natCast_nonneg _
  have hprod_lo : -2147483645 ≤
      (SimFlags.new m).delta_temp * ((t / 1000 / 5 : Nat) : Int) := by
    have h1 : (-5 : Int) * ((t / 1000 / 5 : Nat) : Int) ≤
        (SimFlags.new m).delta_temp * ((t / 1000 / 5 : Nat) : Int) :=
      mul_le_mul_of_nonneg_right hd5 hm0
    have h2 : (-5 : Int) * 429496729 ≤ (-5 : Int) * ((t / 1000 / 5 : Nat) : Int) :=
      mul_le_mul_of_nonpos_left hm (by norm_num)
    linarith
  have hprod_hi : (SimFlags.new m).delta_temp * ((t / 1000 / 5 : Nat) : Int) ≤ 0 := by
    have h1 : (SimFlags.new m).delta_temp * ((t / 1000 / 5 : Nat) : Int) ≤
        (-1 : Int) * ((t / 1000 / 5 : Nat) : Int) :=
      mul_le_mul_of_nonneg_right hd1 hm0
    linarith
  show max (wrap32 ((SimFlags.new m).ambient_temp +
      wrap32 ((SimFlags.new m).delta_temp *
        (if ((t / 1000 / 5 : Nat) : Int) ≤ 2147483647
         then ((t / 1000 / 5 : Nat) : Int) else 0))))
      (SimFlags.new m).ghost_room_min_temp = _
  rw [if_pos (by linarith)]
  rw [@wrap32_eq_self ((SimFlags.new m).delta_temp * ((t / 1000 / 5 : Nat) : Int))
    (by linarith) (by linarith)]
  rw [new_ambient_temp]
  rw [@wrap32_eq_self ((50 : Int) + (SimFlags.new m).delta_temp * ((t / 1000 / 5 : Nat) : Int))
    (by linarith) (by linarith)]

/-- C8 amended: before jitter, within the i32 horizon (elapsed 5-second
units at most 429496729, about 68 years, where neither the i32 wrap nor the
narrowing fallback can strike) the ghost-room temperature equals
max(ambient + delta_temp * u, floor) where u counts whole elapsed 5-second
units (the code advances its decay step every 5 elapsed seconds, computing
elapsed_seconds / 5); hence it is non-increasing over that horizon and
constantly at the floor from 110 elapsed seconds to the end of the horizon.
It is never below the floor at any time.  Beyond even i32::MAX units the
narrowing falls back to 0 and the reading resets to the ambient baseline.
All of this holds for every admissible random slope draw m in 4..10. -/
theorem ghost_room_temp_decay (m : Nat) (h4 : 4 ≤ m) (h10 : m < 10) :
    (∀ t : Millis, t / 1000 / 5 ≤ 429496729 →
        (simAt m t).ghost_room_temp =
          max ((SimFlags.new m).ambient_temp +
            (SimFlags.new m).delta_temp * ((t / 1000 / 5 : Nat) : Int))
            (SimFlags.new m).ghost_room_min_temp)
    ∧ (∀ t1 t2 : Millis, t1 ≤ t2 → t2 / 1000 / 5 ≤ 429496729 →
        (simAt m t2).ghost_room_temp ≤ (simAt m t1).ghost_room_temp)
    ∧ (∀ t : Millis,
        (SimFlags.new m).ghost_room_min_temp ≤ (simAt m t).ghost_room_temp)
    ∧ (∀ t : Millis, 110000 ≤ t → t / 1000 / 5 ≤ 429496729 →
        (simAt m t).ghost_room_temp = (SimFlags.new m).ghost_room_min_temp)
    ∧ (∀ t : Millis, 2147483647 < t / 1000 / 5 →
        (simAt m t).ghost_room_temp = (SimFlags.new m).ambient_temp) := by
  obtain ⟨hd5, hd1⟩ := delta_temp_bounds m h4 h10
  refine ⟨fun t ht => simAt_temp m h4 h10 t ht, ?_, ?_, ?_, ?_⟩
  · intro t1 t2 h hh2
    have hm : t1 / 1000 / 5 ≤ t2 / 1000 / 5 :=
      Nat.div_le_div_right (Nat.div_le_div_right h)
    rw [simAt_temp m h4 h10 t2 hh2, simAt_temp m h4 h10 t1 (le_trans hm hh2)]
    have hmul : (SimFlags.new m).delta_temp * ((t2 / 1000 / 5 : Nat) : Int) ≤
        (SimFlags.new m).delta_temp * ((t1 / 1000 / 5 : Nat) : Int) :=
      mul_le_mul_of_nonpos_left (by exact_mod_cast hm) (by linarith)
    exact max_le_max (by linarith) le_rfl
  · intro t
    exact le_max_right _ _
  · intro t ht hh
    rw [simAt_temp m h4 h10 t hh]
    have h22 : (22 : Nat) ≤ t / 1000 / 5 := by
      have : (110000 : Nat) / 1000 / 5 ≤ t / 1000 / 5 :=
        Nat.div_le_div_right (Nat.div_le_div_right ht)
      simpa using this
    have h22' : (22 : Int) ≤ ((t / 1000 / 5 : Nat) : Int) := by exact_mod_cast h22
    have hmul : (SimFlags.new m).delta_temp * ((t / 1000 / 5 : Nat) : Int) ≤ -22 := by
      have h1 : (SimFlags.new m).delta_temp * ((t / 1000 / 5 : Nat) : Int) ≤
          (-1) * ((t / 1000 / 5 : Nat) : Int) :=
        mul_le_mul_of_nonneg_right hd1 (by positivity)
      linarith
    rw [new_ambient_temp, new_min_temp]
    exact max_eq_right (by linarith)
  · intro t ht
    have hgt : ¬ ((t / 1000 / 5 : Nat) : Int) ≤ 2147483647 := by
      have : (2147483647 : Int) < ((t / 1000 / 5 : Nat) : Int) := by exact_mod_cast ht
      linarith
    show max (wrap32 ((SimFlags.new m).ambient_temp +
        wrap32 ((SimFlags.new m).delta_temp *
          (if ((t / 1000 / 5 : Nat) : Int) ≤ 2147483647
           then ((t / 1000 / 5 : Nat) : Int) else 0))))
        (SimFlags.new m).ghost_room_min_temp = _
    rw [if_neg hgt, mul_zero, wrap32_zero, add_zero, new_ambient_temp,
      new_min_temp, wrap32_fifty]
    exact max_eq_left (by norm_num)

/-- Witness for the amended C8 statement at m = 4 and concrete times,
including one beyond the i32::MAX narrowing horizon. -/
theorem ghost_room_temp_decay_witness :
    ((simAt 4 10000).ghost_room_temp =
      max ((SimFlags.new 4).ambient_temp +
        (SimFlags.new 4).delta_temp * ((10000 / 1000 / 5 : Nat) : Int))
        (SimFlags.new 4).ghost_room_min_temp)
    ∧ (simAt 4 20000).ghost_room_temp ≤ (simAt 4 10000).ghost_room_temp
    ∧ (SimFlags.new 4).ghost_room_min_temp ≤ (simAt 4 10000).ghost_room_temp
    ∧ (simAt 4 120000).ghost_room_temp = (SimFlags.new 4).ghost_room_min_temp
    ∧ (simAt 4 10737418240000).ghost_room_temp = (SimFlags.new 4).ambient_temp :=
  ⟨(ghost_room_temp_decay 4 (by decide) (by decide)).1 10000 (by decide),
   (ghost_room_temp_decay 4 (by decide) (by decide)).2.1 10000 20000
      (by decide) (by decide),
   (ghost_room_temp_decay 4 (by decide) (by decide)).2.2.1 10000,
   (ghost_room_temp_decay 4 (by decide) (by decide)).2.2.2.1 120000
      (by decide) (by decide),
   (ghost_room_temp_decay 4 (by decide) (by decide)).2.2.2.2 10737418240000
      (by decide)⟩

/-- The ghost-movement step of update(dt) runs. -/
def moveCond (s : Simulation) (dt : Millis) : Bool :=
  decide (s.options.ghost_move_interval < s.cur_time + dt - s.flags.last_ghost_move)

/-- The event-pulse step of update(dt) runs. -/
def pulseCond (s : Simulation) (dt : Millis) : Bool :=
  decide (s.options.event_pulse_interval < s.cur_time + dt - s.flags.last_event_pulse)

lemma moveGhostStep_last_event_pulse (map : Map) (r : Rand) (g : Ghost)
    (fl : SimFlags) :
    (moveGhostStep map r g fl).2.last_event_pulse = fl.last_event_pulse := by
  unfold moveGhostStep
  cases h : fl.book_location <;> simp [h]
  all_goals split_ifs <;> rfl

/-- C7: update(dt) returns true if and only if the ghost-movement step ran,
the event-pulse step ran, or at least one scheduled trigger entry fired; a
call in which only the clock advance and the sanity drain occur returns
false. -/
theorem update_changed_iff (s : Simulation) (dt : Millis) (r : Rand) :
    (s.update dt r).2 =
      (moveCond s dt || pulseCond s dt || !(firedOf s dt r).isEmpty) := by
  unfold Simulation.update firedOf moveCond pulseCond Simulation.updateExt checkTriggers
  by_cases hm : s.options.ghost_move_interval < s.cur_time + dt - s.flags.last_ghost_move <;>
    by_cases hp : s.options.event_pulse_interval <
        s.cur_time + dt - s.flags.last_event_pulse <;>
    simp [hm, hp, moveGhostStep_last_event_pulse, Bool.or_comm]

/-- Every registered player has sanity within the range 0 to 100. -/
def SanityInv (s : Simulation) : Prop :=
  ∀ p ∈ s.players, 0 ≤ p.sanity ∧ p.sanity ≤ 100

lemma drain_sanity_bounds (p : Player) (amt : Rat) (hamt : 0 ≤ amt)
    (_h0 : 0 ≤ p.sanity) (h100 : p.sanity ≤ 100) :
    0 ≤ (p.drain_sanity amt).sanity ∧ (p.drain_sanity amt).sanity ≤ 100 := by
  unfold Player.drain_sanity
  dsimp only
  split_ifs with h
  · exact ⟨le_rfl, by norm_num⟩
  · exact ⟨not_lt.mp h, by linarith⟩

lemma drained_map_inv (players : List Player) (f : Player → Rat)
    (hf : ∀ p, 0 ≤ f p)
    (h : ∀ p ∈ players, 0 ≤ p.sanity ∧ p.sanity ≤ 100) :
    ∀ q ∈ players.map (fun p => p.drain_sanity (f p)),
      0 ≤ q.sanity ∧ q.sanity ≤ 100 := by
  intro q hq
  obtain ⟨p, hp, rfl⟩ := List.mem_map.mp hq
  exact drain_sanity_bounds p (f p) (hf p) (h p hp).1 (h p hp).2

lemma setFirstLoc_inv (name : String) (loc : Nat) :
    ∀ players : List Player,
      (∀ p ∈ players, 0 ≤ p.sanity ∧ p.sanity ≤ 100) →
      ∀ q ∈ setFirstLoc name loc players, 0 ≤ q.sanity ∧ q.sanity ≤ 100 := by
  intro players
  induction players with
  | nil => intro _ q hq; simp [setFirstLoc] at hq
  | cons p ps ih =>
      intro h q hq
      rw [setFirstLoc] at hq
      split_ifs at hq with hname
      · rcases List.mem_cons.mp hq with rfl | hq
        · exact h p (List.mem_cons_self _ _)
        · exact h q (List.mem_cons_of_mem p hq)
      · rcases List.mem_cons.mp hq with rfl | hq
        · exact h q (List.mem_cons_self _ _)
        · exact ih (fun x hx => h x (List.mem_cons_of_mem p hx)) q hq

lemma applyOp_options (s : Simulation) (op : Op) :
    (s.applyOp op).options = s.options := by
  cases op with
  | add_player a n =>
      simp only [Simulation.applyOp]
      unfold Simulation.add_player
      split_ifs <;> rfl
  | update dt r =>
      simp only [Simulation.applyOp]
      unfold Simulation.update Simulation.updateExt
      rfl
  | update_player_loc n l => rfl

lemma applyOp_sanity (s : Simulation) (op : Op)
    (hrate : 0 ≤ s.options.sanity_drain_rate) (h : SanityInv s) :
    SanityInv (s.applyOp op) := by
  cases op with
  | add_player a n =>
      simp only [Simulation.applyOp]
      unfold Simulation.add_player
      split_ifs
      · exact h
      · exact h
      · intro q hq
        dsimp only at hq
        rcases List.mem_append.mp hq with hq | hq
        · exact h q hq
        · rw [List.mem_singleton] at hq
          subst hq
          exact ⟨by norm_num, by norm_num⟩
  | update dt r =>
      simp only [Simulation.applyOp]
      unfold Simulation.update Simulation.updateExt
      intro q hq
      dsimp only at hq
      have hdrain : 0 ≤ s.options.sanity_drain_rate * ((dt : Rat) / 1000) :=
        mul_nonneg hrate (by positivity)
      have h0 : ∀ q ∈ s.players.map
          (fun p => p.drain_sanity (s.options.sanity_drain_rate * ((dt : Rat) / 1000))),
          0 ≤ q.sanity ∧ q.sanity ≤ 100 :=
        drained_map_inv s.players _ (fun _ => hdrain) h
      split_ifs at hq
      all_goals
        first
        | exact h0 q hq
        | · unfold eventPulse at hq
            dsimp only at hq
            refine drained_map_inv _ _ (fun p => ?_) h0 q hq
            split_ifs <;> norm_num
  | update_player_loc n l =>
      simp only [Simulation.applyOp]
      unfold Simulation.update_player_loc
      intro q hq
      exact setFirstLoc_inv n l s.players h q hq

/-- C5: starting from a fresh simulation, after any sequence of add_player,
update, and update_player_loc calls every registered player has sanity in
the range 0 to 100: draining floors at 0, no operation raises sanity, and
players join with sanity 100. -/
theorem sanity_in_range (ops : List Op) (m : Nat) :
    SanityInv ((Simulation.new m).applyOps ops) := by
  have general : ∀ (l : List Op) (s : Simulation),
      0 ≤ s.options.sanity_drain_rate → SanityInv s → SanityInv (s.applyOps l) := by
    intro l
    induction l with
    | nil => intro s _ hs; exact hs
    | cons op rest ih =>
        intro s hrate hs
        have hstep : SanityInv (s.applyOp op) := applyOp_sanity s op hrate hs
        have hrate' : 0 ≤ (s.applyOp op).options.sanity_drain_rate := by
          rw [applyOp_options]; exact hrate
        exact ih (s.applyOp op) hrate' hstep
  refine general ops (Simulation.new m) (by norm_num [Simulation.new, SimOptions.new]) ?_
  intro p hp
  simp [Simulation.new] at hp

/-- Witness for C5: the single player of a concrete run (a 12 second update,
which moves the ghost and runs a pulse, followed by a join) has sanity
within range. -/
theorem sanity_in_range_witness :
    0 ≤ (((Simulation.new 4).applyOps
        [Op.update 12000 randNoStay, Op.add_player 0 "alice"]).players.getD 0
          { name := "", addr := 0, last_loc := none, sanity := 0 }).sanity ∧
    (((Simulation.new 4).applyOps
        [Op.update 12000 randNoStay, Op.add_player 0 "alice"]).players.getD 0
          { name := "", addr := 0, last_loc := none, sanity := 0 }).sanity ≤ 100 :=
  sanity_in_range [Op.update 12000 randNoStay, Op.add_player 0 "alice"] 4
    (((Simulation.new 4).applyOps
        [Op.update 12000 randNoStay, Op.add_player 0 "alice"]).players.getD 0
          { name := "", addr := 0, last_loc := none, sanity := 0 })
    (by decide)

/-- Run a sequence of update calls, each with its dt and random draws. -/
def runUpdates (s : Simulation) : List (Millis × Rand) → Simulation
  | [] => s
  | (dt, r) :: rest => runUpdates (s.update dt r).1 rest

/-- Total number of times an entry equal to (T, k) fires over a run. -/
def totalFired (T : Millis) (k : EventTrigger) (s : Simulation) :
    List (Millis × Rand) → Nat
  | [] => 0
  | (dt, r) :: rest =>
      ecount T k (firedOf s dt r) + totalFired T k (s.update dt r).1 rest

lemma ecount_append (T : Millis) (k : EventTrigger)
    (l1 l2 : List (Millis × EventTrigger)) :
    ecount T k (l1 ++ l2) = ecount T k l1 + ecount T k l2 :=
  List.countP_append _ _ _

lemma ecount_single_ne (T : Millis) (k : EventTrigger) (e : Millis × EventTrigger)
    (h : e ≠ (T, k)) : ecount T k [e] = 0 := by
  simp [ecount, h]

lemma ecount_nil (T : Millis) (k : EventTrigger) : ecount T k [] = 0 := rfl

lemma ecount_cons_ne (T : Millis) (k : EventTrigger) (e : Millis × EventTrigger)
    (l : List (Millis × EventTrigger)) (h : e ≠ (T, k)) :
    ecount T k (e :: l) = ecount T k l := by
  simp [ecount, List.countP_cons, h]

lemma ne_entry_of_gt {cur d T : Millis} (kk k : EventTrigger) (h : T < cur) :
    (cur + d, kk) ≠ (T, k) := by
  intro he
  injection he with h1 h2
  exact Nat.ne_of_gt (Nat.lt_of_lt_of_le h (Nat.le_add_right cur d)) h1

lemma ecount_foldl_applyTrigger (cur : Millis) (opt : SimOptions) (T : Millis)
    (k : EventTrigger)
    (hT : (cur + opt.thermometer_update_interval, EventTrigger.UpdateThermometer) ≠ (T, k)) :
    ∀ (l : List (Millis × EventTrigger)) (acc : List (Millis × EventTrigger) × SimFlags),
      ecount T k (l.foldl (applyTrigger cur opt) acc).1 = ecount T k acc.1 := by
  intro l
  induction l with
  | nil => intro acc; rfl
  | cons e rest ih =>
      intro acc
      rw [List.foldl_cons, ih]
      rcases e with ⟨t, kk⟩
      cases kk
      · rfl
      · dsimp only [applyTrigger]
        rw [ecount_append, ecount_single_ne T k _ hT, Nat.add_zero]
      · rfl
      · rfl

lemma checkTriggers_fired_of_le (cur : Millis) (opt : SimOptions)
    (trigs : List (Millis × EventTrigger)) (fl : SimFlags) (T : Millis)
    (k : EventTrigger) (h : cur ≤ T) :
    ecount T k (checkTriggers cur opt trigs fl).2.2.1 = 0 := by
  unfold checkTriggers
  dsimp only
  rw [ecount, List.countP_eq_zero]
  intro e he hp
  rw [List.mem_filter] at he
  cases of_decide_eq_true hp
  exact absurd (of_decide_eq_true he.2) (not_lt.mpr h)

lemma checkTriggers_fired_of_gt (cur : Millis) (opt : SimOptions)
    (trigs : List (Millis × EventTrigger)) (fl : SimFlags) (T : Millis)
    (k : EventTrigger) (h : T < cur) :
    ecount T k (checkTriggers cur opt trigs fl).2.2.1 = ecount T k trigs := by
  unfold checkTriggers
  dsimp only
  rw [ecount, ecount, List.countP_filter]
  refine List.countP_congr (fun e _ => ?_)
  constructor
  · intro hp
    exact ((Bool.and_eq_true _ _).mp hp).1
  · intro hp
    cases of_decide_eq_true hp
    exact (Bool.and_eq_true _ _).mpr ⟨hp, decide_eq_true h⟩

lemma checkTriggers_pending_of_gt (cur : Millis) (opt : SimOptions)
    (trigs : List (Millis × EventTrigger)) (fl : SimFlags) (T : Millis)
    (k : EventTrigger) (h : T < cur) :
    ecount T k (checkTriggers cur opt trigs fl).1 = 0 := by
  unfold checkTriggers
  dsimp only
  rw [ecount_foldl_applyTrigger cur opt T k (ne_entry_of_gt _ _ h)]
  rw [ecount, List.countP_eq_zero]
  intro e he hp
  rw [List.mem_filter] at he
  cases of_decide_eq_true hp
  exact absurd h (by simpa using he.2)

lemma ecount_eventPulse (cur : Millis) (opt : SimOptions) (g : Ghost) (r : Rand)
    (ps : List Player) (fl : SimFlags) (tg : List (Millis × EventTrigger))
    (nt : List String) (T : Millis) (k : EventTrigger) (h : T < cur) :
    ecount T k (eventPulse cur opt g r ps fl tg nt).2.2.1 = ecount T k tg := by
  unfold eventPulse blastEmf
  dsimp only
  split_ifs <;>
    simp [ecount_append, ecount_nil,
      ecount_cons_ne T k _ _ (ne_entry_of_gt _ _ h),
      ecount_single_ne T k _ (ne_entry_of_gt _ _ h)]

lemma updateExt_fired_of_le (s : Simulation) (dt : Millis) (r : Rand) (T : Millis)
    (k : EventTrigger) (h : s.cur_time + dt ≤ T) :
    ecount T k (s.updateExt dt r).2.2 = 0 := by
  unfold Simulation.updateExt
  dsimp only
  split_ifs <;> exact checkTriggers_fired_of_le _ _ _ _ _ _ h

lemma updateExt_fired_of_gt (s : Simulation) (dt : Millis) (r : Rand) (T : Millis)
    (k : EventTrigger) (h : T < s.cur_time + dt) :
    ecount T k (s.updateExt dt r).2.2 = ecount T k s.event_triggers := by
  unfold Simulation.updateExt
  dsimp only
  split_ifs
  all_goals rw [checkTriggers_fired_of_gt _ _ _ _ _ _ h]
  all_goals try rw [ecount_eventPulse _ _ _ _ _ _ _ _ _ _ h]

lemma updateExt_pending_of_gt (s : Simulation) (dt : Millis) (r : Rand) (T : Millis)
    (k : EventTrigger) (h : T < s.cur_time + dt) :
    ecount T k (s.updateExt dt r).1.event_triggers = 0 := by
  unfold Simulation.updateExt
  dsimp only
  split_ifs <;> exact checkTriggers_pending_of_gt _ _ _ _ _ _ h

lemma updateExt_cur_time (s : Simulation) (dt : Millis) (r : Rand) :
    (s.updateExt dt r).1.cur_time = s.cur_time + dt := rfl

lemma pending_stays_zero (T : Millis) (k : EventTrigger) :
    ∀ (steps : List (Millis × Rand)) (s : Simulation), T < s.cur_time →
      ecount T k s.event_triggers = 0 →
      ecount T k (runUpdates s steps).event_triggers = 0 ∧
        totalFired T k s steps = 0 := by
  intro steps
  induction steps with
  | nil => intro s _ h0; exact ⟨h0, rfl⟩
  | cons step rest ih =>
      rcases step with ⟨dt, r⟩
      intro s hcur h0
      have hgt : T < s.cur_time + dt := lt_of_lt_of_le hcur (Nat.le_add_right _ _)
      have hpend : ecount T k (s.update dt r).1.event_triggers = 0 :=
        updateExt_pending_of_gt s dt r T k hgt
      have hcur' : T < (s.update dt r).1.cur_time := by
        rw [show (s.update dt r).1.cur_time = s.cur_time + dt from
          updateExt_cur_time s dt r]
        exact hgt
      have hfired : ecount T k (firedOf s dt r) = 0 := by
        rw [show ecount T k (firedOf s dt r) = ecount T k s.event_triggers from
          updateExt_fired_of_gt s dt r T k hgt]
        exact h0
      have hrest := ih (s.update dt r).1 hcur' hpend
      refine ⟨hrest.1, ?_⟩
      show ecount T k (firedOf s dt r) + totalFired T k (s.update dt r).1 rest = 0
      rw [hfired, hrest.2]

/-- C4: a scheduled entry with fire time T never fires in an update call
whose post-advance clock is at most T; in the first call whose post-advance
clock exceeds T every pending copy of the entry fires and the entry is
discarded (no copy remains pending); and once the clock has passed T an
absent entry stays absent and never fires again over any further sequence of
update calls — together: the entry fires exactly once, never early. -/
theorem trigger_never_early_fires_once (s : Simulation) (T : Millis)
    (k : EventTrigger) :
    (∀ (dt : Millis) (r : Rand), s.cur_time + dt ≤ T →
        ecount T k (firedOf s dt r) = 0)
    ∧ (∀ (dt : Millis) (r : Rand), T < s.cur_time + dt →
        ecount T k (firedOf s dt r) = ecount T k s.event_triggers ∧
        ecount T k (s.update dt r).1.event_triggers = 0)
    ∧ (T < s.cur_time → ecount T k s.event_triggers = 0 →
        ∀ steps : List (Millis × Rand),
          ecount T k (runUpdates s steps).event_triggers = 0 ∧
          totalFired T k s steps = 0) :=
  ⟨fun dt r h => updateExt_fired_of_le s dt r T k h,
   fun dt r h => ⟨updateExt_fired_of_gt s dt r T k h,
                  updateExt_pending_of_gt s dt r T k h⟩,
   fun hcur h0 steps => pending_stays_zero T k steps s hcur h0⟩

/-- Fixture: a fresh simulation carrying one entry scheduled at T = 5000. -/
def simTrig : Simulation :=
  { Simulation.new 4 with event_triggers := [(5000, EventTrigger.EndHunt)] }

/-- Fixture: clock already past T = 5000 with no pending entries. -/
def simTrigLate : Simulation :=
  { Simulation.new 4 with cur_time := 6000, event_triggers := [] }

/-- Witness for C4 at the concrete entry (5000, EndHunt): no firing at
clock 1000, full firing and discard at clock 6000, and absence preserved by
a further call. -/
theorem trigger_never_early_fires_once_witness :
    ecount 5000 EventTrigger.EndHunt (firedOf simTrig 1000 randNoStay) = 0
    ∧ (ecount 5000 EventTrigger.EndHunt (firedOf simTrig 6000 randNoStay) =
         ecount 5000 EventTrigger.EndHunt simTrig.event_triggers ∧
       ecount 5000 EventTrigger.EndHunt
         (simTrig.update 6000 randNoStay).1.event_triggers = 0)
    ∧ (ecount 5000 EventTrigger.EndHunt
         (runUpdates simTrigLate [(1000, randNoStay)]).event_triggers = 0 ∧
       totalFired 5000 EventTrigger.EndHunt simTrigLate [(1000, randNoStay)] = 0) :=
  ⟨(trigger_never_early_fires_once simTrig 5000 EventTrigger.EndHunt).1
      1000 randNoStay (by decide),
   (trigger_never_early_fires_once simTrig 5000 EventTrigger.EndHunt).2.1
      6000 randNoStay (by decide),
   (trigger_never_early_fires_once simTrigLate 5000 EventTrigger.EndHunt).2.2
      (by decide) (by decide) [(1000, randNoStay)]⟩

end Phasmo

